import Mathlib

/-!
Verification of `osmium::area::detail::ProtoRing`
(src/contrib/libosmium/osmium/area/detail/proto_ring.hpp).

A `ProtoRing` is a ring under construction: an ordered chain of pointers to
shared, mutable `NodeRefSegment` objects, plus a cached minimal segment, a
running signed-area sum, and outer/inner nesting links.

Embedding choices:
* Segments are shared mutable objects addressed by pointer.  We model the
  segment heap as a `Store := Nat → NodeRefSegment`; a "pointer" is a `Nat`
  index.  Mutating a segment through a ring mutates the shared store, so
  ring operations act on a `RingState` (store plus ring record).
* `NodeRefSegment` itself lives in node_ref_segment.hpp, which is not part
  of this repository snapshot; it is modelled from the spec (see the doc
  comments on the segment definitions below).
* `int64_t` sums and `int32_t` coordinates are modelled as `Int`; the
  claims under consideration are algebraic identities far below the
  overflow range.
* C++ `assert` failures are modelled by `Option`-returning operations
  (`none` = the assertion fires).
-/

/-- Modelled from the spec (osmium::Location, not under src/): a 2-D
location with integer coordinates. -/
structure Location where
  x : Int
  y : Int
deriving DecidableEq

/-- Modelled from the spec (osmium::NodeRef, not under src/): an opaque
node reference (`ref`) together with its location. -/
structure NodeRef where
  ref : Int
  location : Location
deriving DecidableEq

/-- Modelled from the spec (osmium::area::detail::NodeRefSegment, in
node_ref_segment.hpp which is not under src/): a directed edge between two
located endpoints, with a back-reference slot for the owning ring (a ring
id standing for the C++ ring pointer, `none` = nullptr) and a boolean
"direction finalized" flag. -/
structure NodeRefSegment where
  start : NodeRef
  stop : NodeRef
  ring : Option Nat
  direction_done : Bool
deriving DecidableEq

instance : Inhabited NodeRefSegment :=
  ⟨⟨⟨0, ⟨0, 0⟩⟩, ⟨0, ⟨0, 0⟩⟩, none, false⟩⟩

/-- Modelled from the spec: the segment's signed area contribution `det`,
"the shoelace cross-term for this edge". -/
def NodeRefSegment.det (s : NodeRefSegment) : Int :=
  s.start.location.x * s.stop.location.y - s.stop.location.x * s.start.location.y

/-- Modelled from the spec: segment reversal "swaps start/stop and negates
its contribution" (the negation is a theorem, `det_reverse`, given the
shoelace `det`). -/
def NodeRefSegment.reverse (s : NodeRefSegment) : NodeRefSegment :=
  { s with start := s.stop, stop := s.start }

/-- Modelled from the spec: setting the segment's owning-ring
back-reference (`NodeRefSegment::set_ring`). -/
def NodeRefSegment.set_ring (rid : Nat) (s : NodeRefSegment) : NodeRefSegment :=
  { s with ring := some rid }

/-- Modelled from the spec: set the "direction finalized" flag. -/
def NodeRefSegment.mark_direction_done (s : NodeRefSegment) : NodeRefSegment :=
  { s with direction_done := true }

/-- Modelled from the spec: clear the "direction finalized" flag. -/
def NodeRefSegment.mark_direction_not_done (s : NodeRefSegment) : NodeRefSegment :=
  { s with direction_done := false }

/-- Modelled from the spec: the total order on locations used for segment
comparison, lexicographic by x then y. -/
def Location.ltb (a b : Location) : Bool :=
  decide (a.x < b.x) || (decide (a.x = b.x) && decide (a.y < b.y))

/-- Modelled from the spec: "a total order (used for canonical minimum
selection and tie-breaking)" on segments; lexicographic by start location,
then stop location.  Only locations take part, matching location-based
endpoint identity. -/
def NodeRefSegment.ltb (a b : NodeRefSegment) : Bool :=
  Location.ltb a.start.location b.start.location ||
    (decide (a.start.location = b.start.location) &&
      Location.ltb a.stop.location b.stop.location)

/-- The heap of shared segment objects; a C++ `NodeRefSegment*` is a `Nat`
index into it. -/
def Store : Type := Nat → NodeRefSegment

/-- Write through a segment pointer (in-place mutation of the shared
segment object). -/
def Store.set (st : Store) (i : Nat) (s : NodeRefSegment) : Store :=
  fun j => if j = i then s else st j

/-- Update every segment pointed to by the list, in order, applying `f` in
place (the `std::for_each` loops of `reverse`, `mark_direction_done` and
`reset`). -/
def Store.updAll (f : NodeRefSegment → NodeRefSegment) (st : Store) (l : List Nat) : Store :=
  l.foldl (fun st i => st.set i (f (st i))) st

/-- The `ProtoRing` record: segment chain (pointers), inner-ring list,
cached minimal segment pointer, optional outer-ring pointer, signed area
sum.  Ring pointers are `Nat` ids (`none` = nullptr). -/
structure ProtoRing where
  m_segments : List Nat
  m_inner : List Nat
  m_min_segment : Nat
  m_outer_ring : Option Nat
  m_sum : Int
deriving DecidableEq

/-- A ring together with the shared segment store it points into. -/
structure RingState where
  store : Store
  ring : ProtoRing

/-- `ProtoRing::add_segment_back`: update the cached minimum if the new
segment compares smaller, append the pointer, set the segment's owning
ring to `self`, and add its `det` to the running sum.  (The C++
`assert(segment)` is vacuous here: a `Nat` index is never null.) -/
def ProtoRing.add_segment_back (self : Nat) (s : RingState) (i : Nat) : RingState :=
  { store := s.store.set i ((s.store i).set_ring self)
    ring :=
      { s.ring with
        m_segments := s.ring.m_segments ++ [i]
        m_min_segment :=
          if NodeRefSegment.ltb (s.store i) (s.store s.ring.m_min_segment) then i
          else s.ring.m_min_segment
        m_sum := s.ring.m_sum + (s.store i).det } }

/-- Fold `add_segment_back` over a list of segment pointers (a sequence of
`AppendBack` calls, and the loop body of `join_forward`). -/
def ProtoRing.appendAll (self : Nat) (s : RingState) (l : List Nat) : RingState :=
  l.foldl (ProtoRing.add_segment_back self) s

/-- The `ProtoRing` constructor (`Create`): seed with one segment, with
`m_min_segment` initialized to it and `m_sum` to 0, then
`add_segment_back` it. -/
def ProtoRing.create (self : Nat) (st : Store) (seg : Nat) : RingState :=
  ProtoRing.add_segment_back self
    { store := st
      ring :=
        { m_segments := []
          m_inner := []
          m_min_segment := seg
          m_outer_ring := none
          m_sum := 0 } } seg

/-- `ProtoRing::min_segment`: the cached minimal segment pointer. -/
def ProtoRing.min_segment (r : ProtoRing) : Nat :=
  r.m_min_segment

/-- `ProtoRing::is_outer`: true iff the outer-ring pointer is null. -/
def ProtoRing.is_outer (r : ProtoRing) : Bool :=
  decide (r.m_outer_ring = none)

/-- `ProtoRing::is_cw`: the sign test `m_sum <= 0`. -/
def ProtoRing.is_cw (r : ProtoRing) : Bool :=
  decide (r.m_sum ≤ 0)

/-- `ProtoRing::set_outer_ring`: `assert(outer_ring)` (argument non-null),
`assert(m_inner.empty())`, then store the pointer.  `none` = an assertion
fires. -/
def ProtoRing.set_outer_ring (r : ProtoRing) (outer : Option Nat) : Option ProtoRing :=
  match outer with
  | none => none
  | some o => if r.m_inner = [] then some { r with m_outer_ring := some o } else none

/-- `ProtoRing::add_inner_ring`: `assert(ring)` (argument non-null),
`assert(!m_outer_ring)`, then append.  `none` = an assertion fires. -/
def ProtoRing.add_inner_ring (r : ProtoRing) (inner : Option Nat) : Option ProtoRing :=
  match inner with
  | none => none
  | some i => if r.m_outer_ring = none then some { r with m_inner := r.m_inner ++ [i] } else none

/-- `ProtoRing::get_node_ref_start`: `m_segments.front()->start()`;
`none` models the undefined `front()` on an empty vector. -/
def ProtoRing.get_node_ref_start (s : RingState) : Option NodeRef :=
  s.ring.m_segments.head?.map (fun i => (s.store i).start)

/-- `ProtoRing::get_node_ref_stop`: `m_segments.back()->stop()`;
`none` models the undefined `back()` on an empty vector. -/
def ProtoRing.get_node_ref_stop (s : RingState) : Option NodeRef :=
  s.ring.m_segments.getLast?.map (fun i => (s.store i).stop)

/-- `ProtoRing::closed`: first segment's start location equals last
segment's stop location (`osmium::Location::operator==` compares
coordinates). -/
def ProtoRing.closed (s : RingState) : Option Bool :=
  match ProtoRing.get_node_ref_start s, ProtoRing.get_node_ref_stop s with
  | some a, some b => some (decide (a.location = b.location))
  | _, _ => none

/-- `ProtoRing::reverse`: reverse every member segment in place, reverse
the chain order, negate the sum.  `m_min_segment` is not touched. -/
def ProtoRing.ringReverse (s : RingState) : RingState :=
  { store := Store.updAll NodeRefSegment.reverse s.store s.ring.m_segments
    ring :=
      { s.ring with
        m_segments := s.ring.m_segments.reverse
        m_sum := -s.ring.m_sum } }

/-- `ProtoRing::fix_direction`: reverse the ring iff `is_cw() ==
is_outer()`. -/
def ProtoRing.fix_direction (s : RingState) : RingState :=
  if s.ring.is_cw == s.ring.is_outer then ProtoRing.ringReverse s else s

/-- `ProtoRing::reset`: clear the inner-ring list, null the outer-ring
pointer, and clear every member segment's direction flag. -/
def ProtoRing.reset (s : RingState) : RingState :=
  { store := Store.updAll NodeRefSegment.mark_direction_not_done s.store s.ring.m_segments
    ring := { s.ring with m_inner := [], m_outer_ring := none } }

/-- `ProtoRing::join_forward`: absorb `other`'s chain, in order, via
repeated `add_segment_back` (the `reserve` call has no observable
effect). -/
def ProtoRing.join_forward (self : Nat) (s : RingState) (other : ProtoRing) : RingState :=
  ProtoRing.appendAll self s other.m_segments

/-! ### Concrete stores and states used by witnesses and counterexamples -/

/-- A trivial concrete store (every pointer a degenerate segment), for
witness states whose segment contents are irrelevant. -/
def stTrivial : Store := fun _ => default

/-- Concrete witness state: a one-segment outer ring with negative sum. -/
def exC4cw : RingState :=
  { store := stTrivial
    ring :=
      { m_segments := [0], m_inner := [], m_min_segment := 0
        m_outer_ring := none, m_sum := -2 } }

/-- Concrete witness state: a one-segment outer ring with positive sum. -/
def exC4ccw : RingState :=
  { store := stTrivial
    ring :=
      { m_segments := [0], m_inner := [], m_min_segment := 0
        m_outer_ring := none, m_sum := 5 } }

/-- Concrete store for the `fix_direction` counterexample: segment 0 runs
from (0,0) to (1,0), segment 1 runs back from (1,0) to (0,0); both have
`det` 0. -/
def stC3 : Store := fun j =>
  if j = 0 then ⟨⟨1, ⟨0, 0⟩⟩, ⟨2, ⟨1, 0⟩⟩, none, false⟩
  else ⟨⟨2, ⟨1, 0⟩⟩, ⟨1, ⟨0, 0⟩⟩, none, false⟩

/-- A degenerate but perfectly constructible closed outer ring (seed with
segment 0, append segment 1) whose signed area sum is zero. -/
def exC3 : RingState := ProtoRing.appendAll 0 (ProtoRing.create 0 stC3 0) [1]

/-- Concrete inner ring (outer pointer set, no inner rings). -/
def rC6inner : ProtoRing := ⟨[0], [], 0, some 9, 0⟩

/-- Concrete outer ring already holding an inner ring. -/
def rC6parent : ProtoRing := ⟨[0], [3], 0, none, 0⟩

/-- Concrete fresh ring: no outer pointer, no inner rings. -/
def rC6fresh : ProtoRing := ⟨[0], [], 0, none, 0⟩

/-- Concrete store for the join witness: a triangle
(0,0)→(2,0)→(2,2)→(0,0) split across two rings. -/
def stC7 : Store := fun j =>
  if j = 0 then ⟨⟨1, ⟨0, 0⟩⟩, ⟨2, ⟨2, 0⟩⟩, none, false⟩
  else if j = 1 then ⟨⟨2, ⟨2, 0⟩⟩, ⟨3, ⟨2, 2⟩⟩, none, false⟩
  else ⟨⟨3, ⟨2, 2⟩⟩, ⟨1, ⟨0, 0⟩⟩, none, false⟩

/-- Concrete left ring for the join witness: just segment 0. -/
def sC7 : RingState := ProtoRing.create 0 stC7 0

/-- Concrete right ring for the join witness: segments 1 and 2, with the
matching faithful sum. -/
def rC7other : ProtoRing := ⟨[1, 2], [], 1, none, 4⟩

/-- Concrete store for the closure witness: two segments forming a loop
whose closing endpoints are distinct node references (refs 1 and 42) at
the same location. -/
def stC8 : Store := fun j =>
  if j = 0 then ⟨⟨1, ⟨0, 0⟩⟩, ⟨2, ⟨1, 1⟩⟩, none, false⟩
  else ⟨⟨2, ⟨1, 1⟩⟩, ⟨42, ⟨0, 0⟩⟩, none, false⟩

/-- Concrete two-segment ring over `stC8`. -/
def sC8 : RingState := ProtoRing.appendAll 0 (ProtoRing.create 0 stC8 0) [1]

/-- Concrete state for the C9 witness: one finalized segment in a nested
ring. -/
def sC9 : RingState :=
  { store := fun _ => ⟨⟨1, ⟨0, 0⟩⟩, ⟨2, ⟨1, 1⟩⟩, some 0, true⟩
    ring := ⟨[0], [4], 0, some 2, 3⟩ }

/-- Concrete store for C10: the triangle (0,0)→(4,0)→(0,3)→(0,0). -/
def stC10 : Store := fun j =>
  if j = 0 then ⟨⟨1, ⟨0, 0⟩⟩, ⟨2, ⟨4, 0⟩⟩, none, false⟩
  else if j = 1 then ⟨⟨2, ⟨4, 0⟩⟩, ⟨3, ⟨0, 3⟩⟩, none, false⟩
  else ⟨⟨3, ⟨0, 3⟩⟩, ⟨1, ⟨0, 0⟩⟩, none, false⟩

/-- Concrete triangle ring over `stC10`, built through the constructor and
`add_segment_back`; its cached minimum is segment 0. -/
def sC10 : RingState := ProtoRing.appendAll 0 (ProtoRing.create 0 stC10 0) [1, 2]

/-! ### Segment-level lemmas -/

theorem NodeRefSegment.reverse_reverse (s : NodeRefSegment) : s.reverse.reverse = s := rfl

theorem NodeRefSegment.det_reverse (s : NodeRefSegment) : s.reverse.det = -s.det := by
  simp [NodeRefSegment.det, NodeRefSegment.reverse]

theorem NodeRefSegment.det_set_ring (rid : Nat) (s : NodeRefSegment) :
    (s.set_ring rid).det = s.det := rfl

theorem NodeRefSegment.det_congr {a b : NodeRefSegment}
    (h1 : a.start = b.start) (h2 : a.stop = b.stop) : a.det = b.det := by
  simp [NodeRefSegment.det, h1, h2]

theorem NodeRefSegment.ltb_congr {a a' b b' : NodeRefSegment}
    (ha1 : a.start = a'.start) (ha2 : a.stop = a'.stop)
    (hb1 : b.start = b'.start) (hb2 : b.stop = b'.stop) :
    NodeRefSegment.ltb a b = NodeRefSegment.ltb a' b' := by
  simp [NodeRefSegment.ltb, ha1, ha2, hb1, hb2]

theorem NodeRefSegment.ltb_irrefl (a : NodeRefSegment) : NodeRefSegment.ltb a a = false := by
  simp [NodeRefSegment.ltb, Location.ltb]

theorem NodeRefSegment.ltb_trans {a b c : NodeRefSegment}
    (hab : NodeRefSegment.ltb a b = true) (hbc : NodeRefSegment.ltb b c = true) :
    NodeRefSegment.ltb a c = true := by
  simp only [NodeRefSegment.ltb, Location.ltb, Bool.or_eq_true, Bool.and_eq_true,
    decide_eq_true_eq] at *
  rcases a with ⟨⟨ar, ⟨ax, ay⟩⟩, ⟨br, ⟨bx, by'⟩⟩, _, _⟩
  rcases b with ⟨⟨cr, ⟨cx, cy⟩⟩, ⟨dr, ⟨dx, dy⟩⟩, _, _⟩
  rcases c with ⟨⟨er, ⟨ex, ey⟩⟩, ⟨fr, ⟨fx, fy⟩⟩, _, _⟩
  simp only [Location.mk.injEq] at *
  omega

/-! ### Store lemmas -/

theorem Store.set_apply (st : Store) (i : Nat) (s : NodeRefSegment) (j : Nat) :
    (st.set i s) j = if j = i then s else st j := rfl

theorem Store.updAll_apply (f : NodeRefSegment → NodeRefSegment) (l : List Nat) :
    ∀ (st : Store) (j : Nat), Store.updAll f st l j = f^[l.count j] (st j) := by
  induction l with
  | nil => intro st j; rfl
  | cons i t ih =>
    intro st j
    show Store.updAll f (st.set i (f (st i))) t j = f^[(i :: t).count j] (st j)
    rw [ih, Store.set_apply]
    by_cases h : j = i
    · subst h
      simp [List.count_cons_self, Function.iterate_succ_apply]
    · simp [h, List.count_cons_of_ne h]

theorem NodeRefSegment.iterate_reverse_even (n : Nat) (s : NodeRefSegment) :
    NodeRefSegment.reverse^[n + n] s = s := by
  induction n generalizing s with
  | zero => rfl
  | succ k ih =>
    have h : k + 1 + (k + 1) = k + k + 2 := by omega
    rw [h, Function.iterate_add_apply]
    have h2 : NodeRefSegment.reverse^[2] s = s := by
      rw [show (2 : Nat) = 1 + 1 from rfl, Function.iterate_add_apply,
        Function.iterate_one, NodeRefSegment.reverse_reverse]
    rw [h2, ih]

theorem NodeRefSegment.iterate_mark_not_done (n : Nat) (s : NodeRefSegment) :
    NodeRefSegment.mark_direction_not_done^[n + 1] s =
      NodeRefSegment.mark_direction_not_done s := by
  induction n generalizing s with
  | zero => rfl
  | succ k ih =>
    rw [Function.iterate_succ_apply, ih]
    rfl

/-! ### What `add_segment_back` and `appendAll` do to the shared store -/

theorem ProtoRing.store_add_segment_back (self : Nat) (s : RingState) (i j : Nat) :
    ((ProtoRing.add_segment_back self s i).store j).start = (s.store j).start ∧
    ((ProtoRing.add_segment_back self s i).store j).stop = (s.store j).stop := by
  show ((s.store.set i ((s.store i).set_ring self)) j).start = _ ∧
    ((s.store.set i ((s.store i).set_ring self)) j).stop = _
  rw [Store.set_apply]
  by_cases h : j = i
  · subst h
    simp [NodeRefSegment.set_ring]
  · simp [h]

theorem ProtoRing.store_appendAll (self : Nat) (l : List Nat) :
    ∀ (s : RingState) (j : Nat),
      ((ProtoRing.appendAll self s l).store j).start = (s.store j).start ∧
      ((ProtoRing.appendAll self s l).store j).stop = (s.store j).stop := by
  induction l with
  | nil => intro s j; exact ⟨rfl, rfl⟩
  | cons i t ih =>
    intro s j
    obtain ⟨h1, h2⟩ := ih (ProtoRing.add_segment_back self s i) j
    obtain ⟨g1, g2⟩ := ProtoRing.store_add_segment_back self s i j
    exact ⟨h1.trans g1, h2.trans g2⟩

theorem ProtoRing.det_store_add_segment_back (self : Nat) (s : RingState) (i j : Nat) :
    ((ProtoRing.add_segment_back self s i).store j).det = (s.store j).det :=
  NodeRefSegment.det_congr (ProtoRing.store_add_segment_back self s i j).1
    (ProtoRing.store_add_segment_back self s i j).2

theorem ProtoRing.det_store_appendAll (self : Nat) (l : List Nat) (s : RingState) (j : Nat) :
    ((ProtoRing.appendAll self s l).store j).det = (s.store j).det :=
  NodeRefSegment.det_congr (ProtoRing.store_appendAll self l s j).1
    (ProtoRing.store_appendAll self l s j).2

theorem ProtoRing.det_store_create (self : Nat) (st : Store) (seed j : Nat) :
    ((ProtoRing.create self st seed).store j).det = (st j).det :=
  ProtoRing.det_store_add_segment_back self _ seed j

theorem ProtoRing.ltb_store_add_segment_back (self : Nat) (s : RingState) (i a b : Nat) :
    NodeRefSegment.ltb ((ProtoRing.add_segment_back self s i).store a)
      ((ProtoRing.add_segment_back self s i).store b) =
    NodeRefSegment.ltb (s.store a) (s.store b) :=
  NodeRefSegment.ltb_congr (ProtoRing.store_add_segment_back self s i a).1
    (ProtoRing.store_add_segment_back self s i a).2
    (ProtoRing.store_add_segment_back self s i b).1
    (ProtoRing.store_add_segment_back self s i b).2

/-! ### What `appendAll` does to the ring record -/

theorem ProtoRing.appendAll_segments (self : Nat) (l : List Nat) :
    ∀ s : RingState,
      (ProtoRing.appendAll self s l).ring.m_segments = s.ring.m_segments ++ l := by
  induction l with
  | nil => intro s; simp [ProtoRing.appendAll]
  | cons i t ih =>
    intro s
    show (ProtoRing.appendAll self (ProtoRing.add_segment_back self s i) t).ring.m_segments = _
    rw [ih]
    simp [ProtoRing.add_segment_back]

theorem ProtoRing.appendAll_sum (self : Nat) (l : List Nat) :
    ∀ s : RingState,
      (ProtoRing.appendAll self s l).ring.m_sum =
        s.ring.m_sum + (l.map (fun i => (s.store i).det)).sum := by
  induction l with
  | nil => intro s; simp [ProtoRing.appendAll]
  | cons i t ih =>
    intro s
    show (ProtoRing.appendAll self (ProtoRing.add_segment_back self s i) t).ring.m_sum = _
    rw [ih]
    have hdet : (fun x => (((ProtoRing.add_segment_back self s i)).store x).det) =
        fun x => (s.store x).det :=
      funext fun x => ProtoRing.det_store_add_segment_back self s i x
    rw [hdet]
    show s.ring.m_sum + (s.store i).det + (List.map (fun x => (s.store x).det) t).sum = _
    rw [List.map_cons, List.sum_cons]
    ring

theorem ProtoRing.appendAll_inner_outer (self : Nat) (l : List Nat) :
    ∀ s : RingState,
      (ProtoRing.appendAll self s l).ring.m_inner = s.ring.m_inner ∧
      (ProtoRing.appendAll self s l).ring.m_outer_ring = s.ring.m_outer_ring := by
  induction l with
  | nil => intro s; exact ⟨rfl, rfl⟩
  | cons i t ih =>
    intro s
    exact ⟨(ih (ProtoRing.add_segment_back self s i)).1,
      (ih (ProtoRing.add_segment_back self s i)).2⟩

/-! ### The cached-minimum invariant -/

theorem ProtoRing.add_segment_back_min (self : Nat) (s : RingState) (i : Nat)
    (h1 : s.ring.m_min_segment ∈ s.ring.m_segments)
    (h2 : ∀ j ∈ s.ring.m_segments,
      NodeRefSegment.ltb (s.store j) (s.store s.ring.m_min_segment) = false) :
    (ProtoRing.add_segment_back self s i).ring.m_min_segment ∈
      (ProtoRing.add_segment_back self s i).ring.m_segments ∧
    ∀ j ∈ (ProtoRing.add_segment_back self s i).ring.m_segments,
      NodeRefSegment.ltb ((ProtoRing.add_segment_back self s i).store j)
        ((ProtoRing.add_segment_back self s i).store
          (ProtoRing.add_segment_back self s i).ring.m_min_segment) = false := by
  have hseg : (ProtoRing.add_segment_back self s i).ring.m_segments
      = s.ring.m_segments ++ [i] := rfl
  have hmin : (ProtoRing.add_segment_back self s i).ring.m_min_segment
      = if NodeRefSegment.ltb (s.store i) (s.store s.ring.m_min_segment) then i
        else s.ring.m_min_segment := rfl
  constructor
  · rw [hseg, hmin]
    by_cases hc : NodeRefSegment.ltb (s.store i) (s.store s.ring.m_min_segment) = true
    · rw [if_pos hc]
      exact List.mem_append_right _ (List.mem_singleton_self i)
    · rw [if_neg hc]
      exact List.mem_append_left _ h1
  · intro j hj
    rw [ProtoRing.ltb_store_add_segment_back, hmin]
    rw [hseg] at hj
    rcases List.mem_append.mp hj with hjs | hji
    · by_cases hc : NodeRefSegment.ltb (s.store i) (s.store s.ring.m_min_segment) = true
      · rw [if_pos hc]
        cases hb : NodeRefSegment.ltb (s.store j) (s.store i) with
        | false => rfl
        | true =>
          exfalso
          have h3 := h2 j hjs
          rw [NodeRefSegment.ltb_trans hb hc] at h3
          simp at h3
      · rw [if_neg hc]
        exact h2 j hjs
    · have hji' : j = i := List.mem_singleton.mp hji
      subst hji'
      by_cases hc : NodeRefSegment.ltb (s.store j) (s.store s.ring.m_min_segment) = true
      · rw [if_pos hc]
        exact NodeRefSegment.ltb_irrefl _
      · rw [if_neg hc]
        exact Bool.eq_false_iff.mpr hc

theorem ProtoRing.appendAll_min (self : Nat) (l : List Nat) :
    ∀ s : RingState,
      s.ring.m_min_segment ∈ s.ring.m_segments →
      (∀ j ∈ s.ring.m_segments,
        NodeRefSegment.ltb (s.store j) (s.store s.ring.m_min_segment) = false) →
      ((ProtoRing.appendAll self s l).ring.m_min_segment ∈
          (ProtoRing.appendAll self s l).ring.m_segments ∧
        ∀ j ∈ (ProtoRing.appendAll self s l).ring.m_segments,
          NodeRefSegment.ltb ((ProtoRing.appendAll self s l).store j)
            ((ProtoRing.appendAll self s l).store
              (ProtoRing.appendAll self s l).ring.m_min_segment) = false) := by
  induction l with
  | nil => intro s h1 h2; exact ⟨h1, h2⟩
  | cons i t ih =>
    intro s h1 h2
    obtain ⟨g1, g2⟩ := ProtoRing.add_segment_back_min self s i h1 h2
    exact ih (ProtoRing.add_segment_back self s i) g1 g2

theorem ProtoRing.create_min (self : Nat) (st : Store) (seed : Nat) :
    (ProtoRing.create self st seed).ring.m_min_segment ∈
      (ProtoRing.create self st seed).ring.m_segments ∧
    ∀ j ∈ (ProtoRing.create self st seed).ring.m_segments,
      NodeRefSegment.ltb ((ProtoRing.create self st seed).store j)
        ((ProtoRing.create self st seed).store
          (ProtoRing.create self st seed).ring.m_min_segment) = false := by
  have hmin : (ProtoRing.create self st seed).ring.m_min_segment = seed := by
    show (if NodeRefSegment.ltb (st seed) (st seed) then seed else seed) = seed
    simp
  have hseg : (ProtoRing.create self st seed).ring.m_segments = [seed] := rfl
  rw [hmin, hseg]
  refine ⟨List.mem_singleton_self seed, ?_⟩
  intro j hj
  rw [List.mem_singleton.mp hj]
  exact NodeRefSegment.ltb_irrefl _

/-! ### Claim theorems -/

/-- C1: for every ring built by the constructor (`create`) followed by any
sequence of `add_segment_back` calls, with no intervening reverse, the
ring's `m_sum` (signed_area_sum) equals the sum of the `det` contributions
of all segments currently in the ring, read through the current store. -/
theorem C1_signed_area_sum_invariant (self : Nat) (st : Store) (seed : Nat) (l : List Nat) :
    (ProtoRing.appendAll self (ProtoRing.create self st seed) l).ring.m_sum =
      ((ProtoRing.appendAll self (ProtoRing.create self st seed) l).ring.m_segments.map
        (fun i => ((ProtoRing.appendAll self (ProtoRing.create self st seed) l).store i).det)).sum := by
  have hfin :
      (fun i => ((ProtoRing.appendAll self (ProtoRing.create self st seed) l).store i).det)
        = fun i => (st i).det :=
    funext fun i => (ProtoRing.det_store_appendAll self l _ i).trans
      (ProtoRing.det_store_create self st seed i)
  have hcr : (fun i => ((ProtoRing.create self st seed).store i).det) = fun i => (st i).det :=
    funext fun i => ProtoRing.det_store_create self st seed i
  rw [ProtoRing.appendAll_sum, ProtoRing.appendAll_segments, hfin, hcr]
  have hs : (ProtoRing.create self st seed).ring.m_sum = (st seed).det := by
    show 0 + (st seed).det = (st seed).det
    ring
  have hseg : (ProtoRing.create self st seed).ring.m_segments = [seed] := rfl
  rw [hs, hseg]
  simp

/-- C2: for every ring built by the constructor followed by any sequence of
`add_segment_back` calls, `min_segment` is a member of the ring's segment
chain and no segment of the chain is strictly smaller than it under the
segment total order. -/
theorem C2_min_segment_minimum (self : Nat) (st : Store) (seed : Nat) (l : List Nat) :
    (ProtoRing.appendAll self (ProtoRing.create self st seed) l).ring.min_segment ∈
      (ProtoRing.appendAll self (ProtoRing.create self st seed) l).ring.m_segments ∧
    ∀ j ∈ (ProtoRing.appendAll self (ProtoRing.create self st seed) l).ring.m_segments,
      NodeRefSegment.ltb
        ((ProtoRing.appendAll self (ProtoRing.create self st seed) l).store j)
        ((ProtoRing.appendAll self (ProtoRing.create self st seed) l).store
          ((ProtoRing.appendAll self (ProtoRing.create self st seed) l).ring.min_segment)) = false :=
  ProtoRing.appendAll_min self l (ProtoRing.create self st seed)
    (ProtoRing.create_min self st seed).1 (ProtoRing.create_min self st seed).2
/-- C4: `is_cw` is exactly the test `m_sum <= 0`, and `fix_direction`
reverses the ring iff `is_cw = is_outer`, leaving it unchanged
otherwise. -/
theorem C4_is_cw_fix_direction (s : RingState) :
    (s.ring.is_cw = true ↔ s.ring.m_sum ≤ 0) ∧
    (s.ring.is_cw = s.ring.is_outer →
      ProtoRing.fix_direction s = ProtoRing.ringReverse s) ∧
    (s.ring.is_cw ≠ s.ring.is_outer → ProtoRing.fix_direction s = s) := by
  refine ⟨by simp [ProtoRing.is_cw], ?_, ?_⟩
  · intro h
    unfold ProtoRing.fix_direction
    rw [if_pos]
    rw [h]
    exact beq_self_eq_true _
  · intro h
    unfold ProtoRing.fix_direction
    rw [if_neg]
    intro hc
    exact h (eq_of_beq hc)

/-- C4 witness: the theorem applied to concrete rings, one on each branch
of `fix_direction`. -/
theorem C4_witness :
    (exC4cw.ring.is_cw = true ↔ exC4cw.ring.m_sum ≤ 0) ∧
    ProtoRing.fix_direction exC4cw = ProtoRing.ringReverse exC4cw ∧
    ProtoRing.fix_direction exC4ccw = exC4ccw :=
  ⟨(C4_is_cw_fix_direction exC4cw).1,
    (C4_is_cw_fix_direction exC4cw).2.1 (by decide),
    (C4_is_cw_fix_direction exC4ccw).2.2 (by decide)⟩

/-- C5: ring reversal is an involution: reversing twice restores the
segment sequence order, every segment object in the store (hence each
segment's original start/stop orientation), and the signed area sum.  The
segment-level `reverse` is itself an involution (`reverse_reverse`) and
negates `det` (`det_reverse`). -/
theorem C5_reverse_involution (s : RingState) :
    (ProtoRing.ringReverse (ProtoRing.ringReverse s)).ring.m_segments = s.ring.m_segments ∧
    (∀ j, (ProtoRing.ringReverse (ProtoRing.ringReverse s)).store j = s.store j) ∧
    (ProtoRing.ringReverse (ProtoRing.ringReverse s)).ring.m_sum = s.ring.m_sum := by
  refine ⟨?_, ?_, ?_⟩
  · show s.ring.m_segments.reverse.reverse = s.ring.m_segments
    exact List.reverse_reverse _
  · intro j
    show Store.updAll NodeRefSegment.reverse
        (Store.updAll NodeRefSegment.reverse s.store s.ring.m_segments)
        s.ring.m_segments.reverse j = s.store j
    rw [Store.updAll_apply, Store.updAll_apply, ← Function.iterate_add_apply,
      List.count_reverse]
    exact NodeRefSegment.iterate_reverse_even _ _
  · show - - s.ring.m_sum = s.ring.m_sum
    exact neg_neg _
/-- C3 counterexample: on an outer ring with `m_sum = 0`, the second
`fix_direction` call reverses the ring again — the segment order after two
calls differs from the order after one call, so `fix_direction` is not
idempotent. -/
theorem C3_counterexample :
    (ProtoRing.fix_direction (ProtoRing.fix_direction exC3)).ring.m_segments ≠
      (ProtoRing.fix_direction exC3).ring.m_segments := by decide

/-- C3 (amended): `fix_direction` is idempotent for every ring whose
signed area sum is nonzero and for every inner ring; only an outer ring
with `m_sum = 0` (where `is_cw` holds both before and after negating the
sum) is reversed again by a second call. -/
theorem C3_fix_direction_idempotent (s : RingState)
    (h : s.ring.m_sum ≠ 0 ∨ s.ring.is_outer = false) :
    ProtoRing.fix_direction (ProtoRing.fix_direction s) = ProtoRing.fix_direction s := by
  by_cases hg : (s.ring.is_cw == s.ring.is_outer) = true
  · have h1 : ProtoRing.fix_direction s = ProtoRing.ringReverse s := by
      unfold ProtoRing.fix_direction
      rw [if_pos hg]
    rw [h1]
    unfold ProtoRing.fix_direction
    rw [if_neg]
    intro hc
    have heq := eq_of_beq hg
    have heq2 := eq_of_beq hc
    have hsum : (ProtoRing.ringReverse s).ring.m_sum = -s.ring.m_sum := rfl
    have ho : (ProtoRing.ringReverse s).ring.m_outer_ring = s.ring.m_outer_ring := rfl
    simp only [ProtoRing.is_cw, ProtoRing.is_outer, hsum, ho, decide_eq_decide] at heq heq2
    rcases h with hz | hinner
    · have hiff := heq.trans heq2.symm
      omega
    · simp only [ProtoRing.is_outer, decide_eq_false_iff_not] at hinner
      have ha : ¬s.ring.m_sum ≤ 0 := fun hle => hinner (heq.mp hle)
      have hb : ¬(-s.ring.m_sum ≤ 0) := fun hle => hinner (heq2.mp hle)
      omega
  · have h1 : ProtoRing.fix_direction s = s := by
      unfold ProtoRing.fix_direction
      rw [if_neg hg]
    rw [h1, h1]

/-- C3 witness: the amended idempotence applied to a concrete outer ring
with nonzero sum. -/
theorem C3_witness :
    ProtoRing.fix_direction (ProtoRing.fix_direction exC4cw) =
      ProtoRing.fix_direction exC4cw :=
  C3_fix_direction_idempotent exC4cw (Or.inl (by decide))
/-- C6: nesting contract.  A ring whose outer pointer is set rejects
`add_inner_ring` (the assertion fires, i.e. the result is `none`); a ring
with a non-empty inner list rejects `set_outer_ring`; and under the
respective preconditions (outer unset, inner empty) the assertions never
fire on a non-null argument. -/
theorem C6_nesting_assertions (r : ProtoRing) (o i : Nat) :
    (∀ oid, r.m_outer_ring = some oid →
      ∀ arg, ProtoRing.add_inner_ring r arg = none) ∧
    (r.m_inner ≠ [] → ∀ arg, ProtoRing.set_outer_ring r arg = none) ∧
    (r.m_outer_ring = none → (ProtoRing.add_inner_ring r (some i)).isSome = true) ∧
    (r.m_inner = [] → (ProtoRing.set_outer_ring r (some o)).isSome = true) := by
  refine ⟨?_, ?_, ?_, ?_⟩
  · intro oid ho arg
    cases arg with
    | none => rfl
    | some x => simp [ProtoRing.add_inner_ring, ho]
  · intro hne arg
    cases arg with
    | none => rfl
    | some x => simp [ProtoRing.set_outer_ring, hne]
  · intro ho
    simp [ProtoRing.add_inner_ring, ho]
  · intro hi
    simp [ProtoRing.set_outer_ring, hi]

/-- C6 witness: the four contract clauses at concrete rings. -/
theorem C6_witness :
    ProtoRing.add_inner_ring rC6inner (some 5) = none ∧
    ProtoRing.set_outer_ring rC6parent (some 5) = none ∧
    (ProtoRing.add_inner_ring rC6fresh (some 7)).isSome = true ∧
    (ProtoRing.set_outer_ring rC6fresh (some 7)).isSome = true :=
  ⟨(C6_nesting_assertions rC6inner 5 5).1 9 rfl (some 5),
    (C6_nesting_assertions rC6parent 5 5).2.1 (by decide) (some 5),
    (C6_nesting_assertions rC6fresh 5 7).2.2.1 rfl,
    (C6_nesting_assertions rC6fresh 7 5).2.2.2 rfl⟩

/-- C7: joining forward a ring whose first endpoint continues this ring's
last endpoint yields segment count equal to the sum of both counts, and a
signed area sum equal to the two pre-join sums added (the absorbed ring's
sum being faithful to its segments). -/
theorem C7_join_forward (self : Nat) (s : RingState) (other : ProtoRing)
    (hend : (s.store (s.ring.m_segments.getLastD 0)).stop.location =
      (s.store (other.m_segments.headD 0)).start.location)
    (hsum : other.m_sum = (other.m_segments.map (fun i => (s.store i).det)).sum) :
    (ProtoRing.join_forward self s other).ring.m_segments.length =
      s.ring.m_segments.length + other.m_segments.length ∧
    (ProtoRing.join_forward self s other).ring.m_sum = s.ring.m_sum + other.m_sum := by
  constructor
  · show (ProtoRing.appendAll self s other.m_segments).ring.m_segments.length = _
    rw [ProtoRing.appendAll_segments, List.length_append]
  · show (ProtoRing.appendAll self s other.m_segments).ring.m_sum = _
    rw [ProtoRing.appendAll_sum, hsum]
/-- C7 witness: the join property at the concrete triangle split. -/
theorem C7_witness :
    (ProtoRing.join_forward 0 sC7 rC7other).ring.m_segments.length =
      sC7.ring.m_segments.length + rC7other.m_segments.length ∧
    (ProtoRing.join_forward 0 sC7 rC7other).ring.m_sum =
      sC7.ring.m_sum + rC7other.m_sum :=
  C7_join_forward 0 sC7 rC7other (by decide) (by decide)

/-- C8: for every non-empty ring, `closed` answers exactly whether the
location of the first segment's start equals the location of the last
segment's stop — a comparison of coordinates only; node reference
identities play no part. -/
theorem C8_closed_iff_location_eq (s : RingState) (h : s.ring.m_segments ≠ []) :
    ProtoRing.closed s =
      some (decide ((s.store (s.ring.m_segments.head h)).start.location =
        (s.store (s.ring.m_segments.getLast h)).stop.location)) := by
  unfold ProtoRing.closed ProtoRing.get_node_ref_start ProtoRing.get_node_ref_stop
  rw [List.head?_eq_head h, List.getLast?_eq_getLast _ h]
  rfl
/-- C8 witness: a ring closed by two distinct node references at the same
location is reported closed. -/
theorem C8_witness :
    (sC8.store 0).start.ref ≠ (sC8.store 1).stop.ref ∧
    ProtoRing.closed sC8 = some true :=
  ⟨by decide, (C8_closed_iff_location_eq sC8 (by decide)).trans (by decide)⟩

/-- C9: `reset` empties the inner-ring list, nulls the outer-ring pointer
(so `is_outer` becomes true), and clears the direction flag of every
member segment, while leaving the segment chain, its order, the cached
minimum and the signed area sum untouched. -/
theorem C9_reset (s : RingState) :
    (ProtoRing.reset s).ring.m_inner = [] ∧
    (ProtoRing.reset s).ring.m_outer_ring = none ∧
    (ProtoRing.reset s).ring.is_outer = true ∧
    (ProtoRing.reset s).ring.m_segments = s.ring.m_segments ∧
    (ProtoRing.reset s).ring.m_sum = s.ring.m_sum ∧
    (ProtoRing.reset s).ring.m_min_segment = s.ring.m_min_segment ∧
    ∀ j ∈ s.ring.m_segments,
      (ProtoRing.reset s).store j = (s.store j).mark_direction_not_done := by
  refine ⟨rfl, rfl, rfl, rfl, rfl, rfl, ?_⟩
  intro j hj
  show Store.updAll NodeRefSegment.mark_direction_not_done s.store s.ring.m_segments j = _
  rw [Store.updAll_apply]
  have hpos : 0 < s.ring.m_segments.count j := List.count_pos_iff.mpr hj
  obtain ⟨n, hn⟩ : ∃ n, s.ring.m_segments.count j = n + 1 :=
    ⟨s.ring.m_segments.count j - 1, by omega⟩
  rw [hn]
  exact NodeRefSegment.iterate_mark_not_done n _
/-- C9 witness: the reset effects at the concrete state, member segment 0
included. -/
theorem C9_witness :
    (ProtoRing.reset sC9).ring.m_inner = [] ∧
    (ProtoRing.reset sC9).ring.is_outer = true ∧
    (ProtoRing.reset sC9).ring.m_sum = sC9.ring.m_sum ∧
    (ProtoRing.reset sC9).store 0 = (sC9.store 0).mark_direction_not_done :=
  ⟨(C9_reset sC9).1, (C9_reset sC9).2.2.1, (C9_reset sC9).2.2.2.2.1,
    (C9_reset sC9).2.2.2.2.2.2 0 (by decide)⟩
/-- C10: ring reversal never touches the cached `min_segment` pointer (for
every ring it returns the same segment object afterwards), even though
the pointed-to segment object itself has been reversed in place — so
after reversing the concrete triangle ring, the segment at pointer 2 is
strictly smaller than the cached minimum: `min_segment` no longer yields
the minimum. -/
theorem C10_reverse_keeps_min_pointer :
    (∀ s : RingState,
      (ProtoRing.ringReverse s).ring.min_segment = s.ring.min_segment) ∧
    (ProtoRing.ringReverse sC10).store sC10.ring.min_segment =
      (sC10.store sC10.ring.min_segment).reverse ∧
    2 ∈ (ProtoRing.ringReverse sC10).ring.m_segments ∧
    NodeRefSegment.ltb ((ProtoRing.ringReverse sC10).store 2)
      ((ProtoRing.ringReverse sC10).store
        ((ProtoRing.ringReverse sC10).ring.min_segment)) = true :=
  ⟨fun _ => rfl, by decide, by decide, by decide⟩

/-- C2 witness: the minimum property at the concrete triangle ring, with
member segment 1 as the compared element. -/
theorem C2_witness :
    (ProtoRing.appendAll 0 (ProtoRing.create 0 stC10 0) [1, 2]).ring.min_segment ∈
      (ProtoRing.appendAll 0 (ProtoRing.create 0 stC10 0) [1, 2]).ring.m_segments ∧
    NodeRefSegment.ltb
      ((ProtoRing.appendAll 0 (ProtoRing.create 0 stC10 0) [1, 2]).store 1)
      ((ProtoRing.appendAll 0 (ProtoRing.create 0 stC10 0) [1, 2]).store
        ((ProtoRing.appendAll 0 (ProtoRing.create 0 stC10 0) [1, 2]).ring.min_segment)) =
      false :=
  ⟨(C2_min_segment_minimum 0 stC10 0 [1, 2]).1,
    (C2_min_segment_minimum 0 stC10 0 [1, 2]).2 1 (by decide)⟩
